import Mathlib

/-!
Shallow embedding of the `on-mouse` activity monitor (src/src/main.rs).

The core is the debounce engine produced by `get_handler` (main.rs lines
371-408): a stateful closure over `last_move_time : Instant` and
`last_is_active : bool` that consumes `Event`s (`Mousemove` / `TimePassed`)
and calls the `on_activity` dispatcher exactly when the classification
changes.

Modelling choices, each traceable to the source:
- `Instant` readings become natural numbers.  The injected clock capability
  `get_now : GetNow` is a mutable closure; we model it as a fixed stream
  `clock : Nat -> Nat` together with a call counter `idx` in the engine
  state: the k-th call of `get_now()` returns `clock k`.
- `now.duration_since(last_move_time)` saturates at zero when `now` is
  earlier (Rust `Instant::duration_since`); natural-number truncated
  subtraction `now - last_move_time` has exactly this behaviour.
- The dispatcher `on_activity : OnActivity` returns `Result<(), String>`;
  we model it as `Activity -> Except String Unit`.
- The Rust closure mutates captured state and returns a `Result`; a step
  returns the post-state explicitly (`StepResult`), together with the
  `Activity` value passed to the dispatcher during the step (if any) and
  the handler's `Result`.  Crucially, on a dispatcher error the `?`
  operator in the source returns before `last_is_active = is_active;`
  runs, and the model reproduces that.
-/

namespace OnMouse

/-- The `enum Activity { Inactive, Active }` of main.rs lines 241-244. -/
inductive Activity
  | Inactive
  | Active
deriving DecidableEq, Repr

/-- The `enum Event { Mousemove, TimePassed }` of main.rs lines 354-357. -/
inductive Event
  | Mousemove
  | TimePassed
deriving DecidableEq, Repr

/-- The engine state captured by the closure in `get_handler`:
`last_move_time` and `last_is_active`, plus `idx`, the number of `get_now()`
calls made so far (a modelling device for the injected clock stream). -/
structure EngineState where
  idx : Nat
  last_move_time : Nat
  last_is_active : Bool
deriving DecidableEq, Repr

/-- Construction: `get_handler` calls `get_now()` once to initialise
`last_move_time`, and starts with `last_is_active = false`
(main.rs lines 368-369). -/
def initState (clock : Nat → Nat) : EngineState :=
  { idx := 1, last_move_time := clock 0, last_is_active := false }

/-- Result of one invocation of the handler closure: the post-state, the
`Activity` value passed to `on_activity` during the call (at most one such
call occurs per invocation, see the single `match` in main.rs lines
394-401), and the returned `Result<(), String>`. -/
structure StepResult where
  state : EngineState
  dispatched : Option Activity
  result : Except String Unit
deriving Repr

/-- The body of the closure returned by `get_handler`
(main.rs lines 379-407), one invocation on one event.

- `Mousemove`: `is_active = true; last_move_time = get_now();`.
- `TimePassed` with `last_is_active` false: `is_active` stays `false`,
  equal pair `(false, false)`, no dispatch, no state change.
- `TimePassed` with `last_is_active` true: `since = now - last_move_time`;
  if `since < min_movement_gap` return `Ok(())` with no further change,
  else `is_active = false`.
- Transition decision on `(last_is_active, is_active)`: equal pairs do
  nothing; `(false, true)` dispatches `Active`; `(true, false)` dispatches
  `Inactive`.  `last_is_active = is_active;` runs only after a successful
  dispatch: the `?` on `on_activity(..)` returns the error first. -/
def handle (clock : Nat → Nat) (gap : Nat) (disp : Activity → Except String Unit)
    (s : EngineState) (e : Event) : StepResult :=
  match e with
  | Event.Mousemove =>
    let now := clock s.idx
    match s.last_is_active, disp Activity.Active with
    | true, _ =>
      -- (true, true): equal pair, no dispatch; `last_is_active` rewritten to `true`.
      ⟨⟨s.idx + 1, now, true⟩, none, Except.ok ()⟩
    | false, Except.ok _ =>
      ⟨⟨s.idx + 1, now, true⟩, some Activity.Active, Except.ok ()⟩
    | false, Except.error msg =>
      -- dispatcher failed: `last_move_time` is already updated, the flip of
      -- `last_is_active` is skipped by the early return of `?`.
      ⟨⟨s.idx + 1, now, false⟩, some Activity.Active, Except.error msg⟩
  | Event.TimePassed =>
    match s.last_is_active with
    | false =>
      -- (false, false): equal pair, nothing happens, no clock call.
      ⟨s, none, Except.ok ()⟩
    | true =>
      let now := clock s.idx
      if now - s.last_move_time < gap then
        -- "Okay, check again later."
        ⟨⟨s.idx + 1, s.last_move_time, true⟩, none, Except.ok ()⟩
      else
        match disp Activity.Inactive with
        | Except.ok _ =>
          ⟨⟨s.idx + 1, s.last_move_time, false⟩, some Activity.Inactive, Except.ok ()⟩
        | Except.error msg =>
          ⟨⟨s.idx + 1, s.last_move_time, true⟩, some Activity.Inactive, Except.error msg⟩

/-- Result of feeding a sequence of events: final state, the sequence of
`Activity` values passed to the dispatcher, and the first error if one
occurred (the driving loop in `activity_thread_main` panics on the first
`Err`, main.rs lines 221-236, so no further events are processed). -/
structure RunResult where
  state : EngineState
  trace : List Activity
  result : Except String Unit
deriving Repr

/-- Feed a list of events through the handler, accumulating the dispatcher
trace, stopping at the first error as `activity_thread_main` does. -/
def run (clock : Nat → Nat) (gap : Nat) (disp : Activity → Except String Unit)
    (s : EngineState) : List Event → RunResult
  | [] => ⟨s, [], Except.ok ()⟩
  | e :: es =>
    let r := handle clock gap disp s e
    match r.result with
    | Except.error msg => ⟨r.state, r.dispatched.toList, Except.error msg⟩
    | Except.ok _ =>
      let rest := run clock gap disp r.state es
      ⟨rest.state, r.dispatched.toList ++ rest.trace, rest.result⟩

/-- A dispatcher that always succeeds. -/
def okDisp : Activity → Except String Unit := fun _ => Except.ok ()

/-- A dispatcher that always fails, used to exercise the error path. -/
def failDisp : Activity → Except String Unit := fun _ => Except.error "dispatch failed"

/-- The only `Activity` value the engine can dispatch next, given its current
`last_is_active`: `(false, true)` dispatches `Active`, `(true, false)`
dispatches `Inactive` (main.rs lines 394-401). -/
def expectedNext (last_is_active : Bool) : Activity :=
  if last_is_active then Activity.Inactive else Activity.Active

/-- Predicate: `altFrom b l` holds when `l` is the strict alternation
`expectedNext b, expectedNext (not b), ...`. -/
def altFrom : Bool → List Activity → Bool
  | _, [] => true
  | b, a :: rest => decide (a = expectedNext b) && altFrom (!b) rest

theorem handle_shape (clock : Nat → Nat) (gap : Nat) (s : EngineState) (e : Event) :
    (handle clock gap okDisp s e).result = Except.ok () ∧
    (((handle clock gap okDisp s e).dispatched = none ∧
      (handle clock gap okDisp s e).state.last_is_active = s.last_is_active) ∨
     ((handle clock gap okDisp s e).dispatched = some (expectedNext s.last_is_active) ∧
      (handle clock gap okDisp s e).state.last_is_active = !s.last_is_active)) := by
  cases e with
  | Mousemove =>
    cases hb : s.last_is_active <;> simp [handle, hb, okDisp, expectedNext]
  | TimePassed =>
    cases hb : s.last_is_active with
    | false => simp [handle, hb, expectedNext]
    | true =>
      by_cases hlt : clock s.idx - s.last_move_time < gap <;>
        simp [handle, hb, okDisp, expectedNext, hlt]

theorem altFrom_run (clock : Nat → Nat) (gap : Nat) :
    ∀ (events : List Event) (s : EngineState),
      altFrom s.last_is_active (run clock gap okDisp s events).trace = true := by
  intro events
  induction events with
  | nil => intro s; simp [run, altFrom]
  | cons e es ih =>
    intro s
    rcases handle_shape clock gap s e with ⟨hres, hcase⟩
    simp only [run, hres]
    rcases hcase with ⟨hd, hb⟩ | ⟨hd, hb⟩
    · simp only [hd, Option.toList_none, List.nil_append]
      rw [← hb]
      exact ih _
    · simp only [hd, Option.toList_some, List.singleton_append, altFrom,
        decide_eq_true_eq, Bool.and_eq_true]
      refine ⟨trivial, ?_⟩
      rw [← hb]
      exact ih _

theorem altFrom_chain :
    ∀ (l : List Activity) (b : Bool), altFrom b l = true →
      List.Chain' (fun x y => x ≠ y) l := by
  intro l
  induction l with
  | nil => intro b _; simp
  | cons a rest ih =>
    intro b h
    simp only [altFrom, Bool.and_eq_true, decide_eq_true_eq] at h
    obtain ⟨ha, hrest⟩ := h
    cases rest with
    | nil => simp
    | cons a2 rest2 =>
      have h2 : a2 = expectedNext (!b) ∧ altFrom (!(!b)) rest2 = true := by
        simpa [altFrom] using hrest
      refine List.chain'_cons.mpr ⟨?_, ih (!b) hrest⟩
      subst ha
      rw [h2.1]
      cases b <;> simp [expectedNext]

/-- Claim C1: with a dispatcher that always succeeds, the sequence of
`Activity` values passed to the dispatcher never contains two consecutive
equal values and strictly alternates `Active, Inactive, Active, ...`,
the first notification (if any) being `Active`, since the engine starts
with `last_is_active = false` (implicit initial `Inactive`). -/
theorem trace_alternates (clock : Nat → Nat) (gap : Nat)
    (disp : Activity → Except String Unit) (hd : ∀ a, disp a = Except.ok ())
    (events : List Event) :
    altFrom false (run clock gap disp (initState clock) events).trace = true ∧
    List.Chain' (fun x y => x ≠ y) (run clock gap disp (initState clock) events).trace := by
  have hdisp : disp = okDisp := funext fun a => hd a
  subst hdisp
  have h := altFrom_run clock gap events (initState clock)
  have hfalse : (initState clock).last_is_active = false := rfl
  rw [hfalse] at h
  exact ⟨h, altFrom_chain _ false h⟩

theorem trace_alternates_witness :
    altFrom false (run (fun i => i + 1) 4 okDisp (initState (fun i => i + 1))
      [Event.Mousemove, Event.TimePassed, Event.TimePassed, Event.TimePassed,
       Event.TimePassed, Event.TimePassed]).trace = true ∧
    List.Chain' (fun x y => x ≠ y)
      (run (fun i => i + 1) 4 okDisp (initState (fun i => i + 1))
        [Event.Mousemove, Event.TimePassed, Event.TimePassed, Event.TimePassed,
         Event.TimePassed, Event.TimePassed]).trace :=
  trace_alternates (fun i => i + 1) 4 okDisp (fun _ => rfl)
    [Event.Mousemove, Event.TimePassed, Event.TimePassed, Event.TimePassed,
     Event.TimePassed, Event.TimePassed]

/-- The side condition of claim C2, evaluated along the run: every
`TimePassed` event that arrives while the engine is active reads a clock
value strictly less than `min_movement_gap` after the last `Mousemove`
(i.e. the debounce gap never elapses).  `TimePassed` while inactive reads
no clock and imposes no condition.  The state recursion mirrors `handle`
with an always-succeeding dispatcher. -/
def noGapElapsed (clock : Nat → Nat) (gap : Nat) : EngineState → List Event → Bool
  | _, [] => true
  | s, Event.Mousemove :: es =>
    noGapElapsed clock gap ⟨s.idx + 1, clock s.idx, true⟩ es
  | s, Event.TimePassed :: es =>
    if s.last_is_active then
      decide (clock s.idx - s.last_move_time < gap) &&
        noGapElapsed clock gap ⟨s.idx + 1, s.last_move_time, true⟩ es
    else
      noGapElapsed clock gap s es

theorem run_active_noGap (clock : Nat → Nat) (gap : Nat) :
    ∀ (events : List Event) (s : EngineState), s.last_is_active = true →
      noGapElapsed clock gap s events = true →
      (run clock gap okDisp s events).trace = [] := by
  intro events
  induction events with
  | nil => intro s _ _; rfl
  | cons e es ih =>
    intro s hb hng
    cases e with
    | Mousemove =>
      have hstep : handle clock gap okDisp s Event.Mousemove =
          ⟨⟨s.idx + 1, clock s.idx, true⟩, none, Except.ok ()⟩ := by
        simp [handle, hb]
      simp only [noGapElapsed] at hng
      simp only [run, hstep, Option.toList_none, List.nil_append]
      exact ih _ rfl hng
    | TimePassed =>
      simp only [noGapElapsed, hb, if_true, Bool.and_eq_true, decide_eq_true_eq] at hng
      obtain ⟨hlt, hng2⟩ := hng
      have hstep : handle clock gap okDisp s Event.TimePassed =
          ⟨⟨s.idx + 1, s.last_move_time, true⟩, none, Except.ok ()⟩ := by
        simp [handle, hb, hlt]
      simp only [run, hstep, Option.toList_none, List.nil_append]
      exact ih _ rfl hng2

theorem run_inactive_noGap (clock : Nat → Nat) (gap : Nat) :
    ∀ (events : List Event) (s : EngineState), s.last_is_active = false →
      noGapElapsed clock gap s events = true →
      (run clock gap okDisp s events).trace =
        if Event.Mousemove ∈ events then [Activity.Active] else [] := by
  intro events
  induction events with
  | nil => intro s _ _; simp [run]
  | cons e es ih =>
    intro s hb hng
    cases e with
    | Mousemove =>
      have hstep : handle clock gap okDisp s Event.Mousemove =
          ⟨⟨s.idx + 1, clock s.idx, true⟩, some Activity.Active, Except.ok ()⟩ := by
        simp [handle, hb, okDisp]
      simp only [noGapElapsed] at hng
      have hrest : (run clock gap okDisp ⟨s.idx + 1, clock s.idx, true⟩ es).trace = [] :=
        run_active_noGap clock gap es _ rfl hng
      simp only [run, hstep, Option.toList_some, List.singleton_append, hrest,
        List.mem_cons, true_or, if_true]
    | TimePassed =>
      have hstep : handle clock gap okDisp s Event.TimePassed =
          ⟨s, none, Except.ok ()⟩ := by
        simp [handle, hb]
      simp only [noGapElapsed, hb, if_false, Bool.false_eq_true] at hng
      simp only [run, hstep, Option.toList_none, List.nil_append]
      rw [ih s hb hng]
      simp [List.mem_cons]

/-- Claim C2: for every event sequence made of `Mousemove` events and
`TimePassed` events none of which occurs after the debounce gap has elapsed
since the last `Mousemove` (the `noGapElapsed` side condition), and a
dispatcher that always succeeds, the handler invokes the dispatcher exactly
once, with `Active`, regardless of how many `Mousemove` events occur. -/
theorem single_active_notification (clock : Nat → Nat) (gap : Nat)
    (disp : Activity → Except String Unit) (hd : ∀ a, disp a = Except.ok ())
    (events : List Event) (hmem : Event.Mousemove ∈ events)
    (hng : noGapElapsed clock gap (initState clock) events = true) :
    (run clock gap disp (initState clock) events).trace = [Activity.Active] := by
  have hdisp : disp = okDisp := funext fun a => hd a
  subst hdisp
  have h := run_inactive_noGap clock gap events (initState clock) rfl hng
  rw [h, if_pos hmem]

theorem single_active_notification_witness :
    (run (fun i => i + 1) 4 okDisp (initState (fun i => i + 1))
      [Event.Mousemove, Event.TimePassed, Event.Mousemove, Event.Mousemove,
       Event.TimePassed, Event.TimePassed]).trace = [Activity.Active] :=
  single_active_notification (fun i => i + 1) 4 okDisp (fun _ => rfl)
    [Event.Mousemove, Event.TimePassed, Event.Mousemove, Event.Mousemove,
     Event.TimePassed, Event.TimePassed]
    (by decide) (by decide)

/-- Claim C3: while the engine is active, a `TimePassed` event whose clock
reading satisfies `now - last_move_time < min_movement_gap` returns `Ok(())`
with no dispatcher invocation and with `last_is_active` and `last_move_time`
both unchanged (main.rs lines 384-387, the premature wake-up path); and an
`Inactive` value is passed to the dispatcher only on a `TimePassed` event,
from the active state, when the elapsed time reaches `min_movement_gap`. -/
theorem premature_tick_noop (clock : Nat → Nat) (gap : Nat)
    (disp : Activity → Except String Unit) (s : EngineState) :
    (s.last_is_active = true → clock s.idx - s.last_move_time < gap →
      (handle clock gap disp s Event.TimePassed).result = Except.ok () ∧
      (handle clock gap disp s Event.TimePassed).dispatched = none ∧
      (handle clock gap disp s Event.TimePassed).state.last_is_active = s.last_is_active ∧
      (handle clock gap disp s Event.TimePassed).state.last_move_time = s.last_move_time) ∧
    (∀ e, (handle clock gap disp s e).dispatched = some Activity.Inactive →
      e = Event.TimePassed ∧ s.last_is_active = true ∧
        gap ≤ clock s.idx - s.last_move_time) := by
  constructor
  · intro hb hlt
    simp [handle, hb, hlt]
  · intro e hdis
    cases e with
    | Mousemove =>
      cases hb : s.last_is_active with
      | true => simp [handle, hb] at hdis
      | false =>
        cases hA : disp Activity.Active with
        | error m => simp [handle, hb, hA] at hdis
        | ok u => simp [handle, hb, hA] at hdis
    | TimePassed =>
      cases hb : s.last_is_active with
      | false => simp [handle, hb] at hdis
      | true =>
        by_cases hlt : clock s.idx - s.last_move_time < gap
        · simp [handle, hb, hlt] at hdis
        · exact ⟨rfl, rfl, Nat.le_of_not_lt hlt⟩

theorem premature_tick_noop_witness :
    ((handle (fun i => i + 1) 4 okDisp ⟨2, 2, true⟩ Event.TimePassed).result = Except.ok () ∧
     (handle (fun i => i + 1) 4 okDisp ⟨2, 2, true⟩ Event.TimePassed).dispatched = none ∧
     (handle (fun i => i + 1) 4 okDisp ⟨2, 2, true⟩ Event.TimePassed).state.last_is_active =
       (⟨2, 2, true⟩ : EngineState).last_is_active ∧
     (handle (fun i => i + 1) 4 okDisp ⟨2, 2, true⟩ Event.TimePassed).state.last_move_time =
       (⟨2, 2, true⟩ : EngineState).last_move_time) ∧
    (Event.TimePassed = Event.TimePassed ∧
     (⟨2, 0, true⟩ : EngineState).last_is_active = true ∧
     2 ≤ (fun i => i + 1) (⟨2, 0, true⟩ : EngineState).idx -
       (⟨2, 0, true⟩ : EngineState).last_move_time) :=
  ⟨(premature_tick_noop (fun i => i + 1) 4 okDisp ⟨2, 2, true⟩).1 rfl (by decide),
   (premature_tick_noop (fun i => i + 1) 2 okDisp ⟨2, 0, true⟩).2 Event.TimePassed (by decide)⟩

/-- Claim C4 counterexample: at a concrete input (initial state, failing
dispatcher, a `Mousemove`) the error is propagated, but — contrary to the
claim — `last_is_active` has NOT flipped to the candidate value `true`: in
the source, the `?` on `on_activity(..)` returns before
`last_is_active = is_active;` runs (main.rs lines 394-404). -/
theorem dispatch_error_cex :
    (handle (fun i => i) 4 failDisp (initState (fun i => i)) Event.Mousemove).result =
      Except.error "dispatch failed" ∧
    ¬ ((handle (fun i => i) 4 failDisp
        (initState (fun i => i)) Event.Mousemove).state.last_is_active = true) :=
  ⟨rfl, by decide⟩

/-- Claim C4 (amended): if the dispatcher returns an error during a
transition, the handler propagates that exact error to its caller unchanged
and without retrying (the dispatcher was invoked once, with the
transition's `Activity` value, and its error is returned verbatim); but the
engine's `last_is_active` is left UNCHANGED at the point the error is
returned — the flip to the candidate value is skipped by the early return
of `?` — while for a `Mousemove` event `last_move_time` has nonetheless
already been updated to the new clock reading. -/
theorem dispatch_error_propagated (clock : Nat → Nat) (gap : Nat)
    (disp : Activity → Except String Unit) (s : EngineState) (e : Event) (msg : String)
    (herr : (handle clock gap disp s e).result = Except.error msg) :
    (∃ a, (handle clock gap disp s e).dispatched = some a ∧ disp a = Except.error msg) ∧
    (handle clock gap disp s e).state.last_is_active = s.last_is_active ∧
    (e = Event.Mousemove →
      (handle clock gap disp s e).state.last_move_time = clock s.idx) := by
  cases e with
  | Mousemove =>
    cases hb : s.last_is_active with
    | true => simp [handle, hb] at herr
    | false =>
      cases hA : disp Activity.Active with
      | ok u => simp [handle, hb, hA] at herr
      | error m =>
        simp only [handle, hb, hA, Except.error.injEq] at herr
        subst herr
        exact ⟨⟨Activity.Active, by simp [handle, hb, hA], hA⟩,
          by simp [handle, hb, hA], fun _ => by simp [handle, hb, hA]⟩
  | TimePassed =>
    cases hb : s.last_is_active with
    | false => simp [handle, hb] at herr
    | true =>
      by_cases hlt : clock s.idx - s.last_move_time < gap
      · simp [handle, hb, hlt] at herr
      · cases hI : disp Activity.Inactive with
        | ok u => simp [handle, hb, hlt, hI] at herr
        | error m =>
          simp only [handle, hb, hlt, if_false, hI, Except.error.injEq] at herr
          subst herr
          exact ⟨⟨Activity.Inactive, by simp [handle, hb, hlt, hI], hI⟩,
            by simp [handle, hb, hlt, hI], fun h => nomatch h⟩

theorem dispatch_error_propagated_witness :
    (∃ a, (handle (fun i => i) 4 failDisp
        (initState (fun i => i)) Event.Mousemove).dispatched = some a ∧
      failDisp a = Except.error "dispatch failed") ∧
    (handle (fun i => i) 4 failDisp
        (initState (fun i => i)) Event.Mousemove).state.last_is_active =
      (initState (fun i => i)).last_is_active ∧
    (Event.Mousemove = Event.Mousemove →
      (handle (fun i => i) 4 failDisp
          (initState (fun i => i)) Event.Mousemove).state.last_move_time =
        (fun i => i) (initState (fun i => i)).idx) :=
  dispatch_error_propagated (fun i => i) 4 failDisp (initState (fun i => i))
    Event.Mousemove "dispatch failed" rfl

/-- First stage of the scenario from the source's unit test
`this_sequence_produces_the_expected_calls` (main.rs lines 410-463):
one `Mousemove` followed by three `TimePassed` ticks. -/
def c5stage1 : List Event := Event.Mousemove :: List.replicate 3 Event.TimePassed

/-- Second stage: the first stage followed by five more repetitions of it. -/
def c5stage2 : List Event := c5stage1 ++ (List.replicate 5 c5stage1).flatten

/-- Third stage: the second stage followed by five more `TimePassed` ticks. -/
def c5stage3 : List Event := c5stage2 ++ List.replicate 5 Event.TimePassed

/-- Claim C5: with `min_movement_gap = 4` time units and a clock advancing
one unit per reading (as in the source's unit test, which uses a 4 ns gap
and a synthetic clock adding 1 ns per `get_now` call), the stages emit
exactly `[Active]`, `[Active]` (no new notification), and
`[Active, Inactive]`. -/
theorem scenario_gap4 :
    (run (fun i => i + 1) 4 okDisp (initState (fun i => i + 1)) c5stage1).trace =
      [Activity.Active] ∧
    (run (fun i => i + 1) 4 okDisp (initState (fun i => i + 1)) c5stage2).trace =
      [Activity.Active] ∧
    (run (fun i => i + 1) 4 okDisp (initState (fun i => i + 1)) c5stage3).trace =
      [Activity.Active, Activity.Inactive] := by
  refine ⟨?_, ?_, ?_⟩ <;> decide

/-- Claim C6: any number of `TimePassed` events fed to the engine while it
is inactive produce no dispatcher invocation and leave the state exactly
unchanged (the `(false, false)` fast path, main.rs lines 380 and 395). -/
theorem inactive_timepassed_noop (clock : Nat → Nat) (gap : Nat)
    (disp : Activity → Except String Unit) (s : EngineState) (n : Nat)
    (hb : s.last_is_active = false) :
    run clock gap disp s (List.replicate n Event.TimePassed) =
      ⟨s, [], Except.ok ()⟩ := by
  induction n with
  | zero => rfl
  | succ n ih =>
    have hstep : handle clock gap disp s Event.TimePassed =
        ⟨s, none, Except.ok ()⟩ := by
      simp [handle, hb]
    simp only [List.replicate_succ, run, hstep, ih, Option.toList_none, List.nil_append]

theorem inactive_timepassed_noop_witness :
    run (fun i => i + 1) 4 okDisp (initState (fun i => i + 1))
      (List.replicate 7 Event.TimePassed) = ⟨initState (fun i => i + 1), [], Except.ok ()⟩ :=
  inactive_timepassed_noop (fun i => i + 1) 4 okDisp (initState (fun i => i + 1)) 7 rfl

/-- Claim C10: one handler invocation passes at most one value to the
dispatcher (a step's `dispatched` field is an `Option`, mirroring the single
dispatching `match` in main.rs lines 394-401), and the direction is fixed
by the event kind: a `Mousemove` can only ever dispatch `Active` and a
`TimePassed` can only ever dispatch `Inactive`. -/
theorem dispatch_direction (clock : Nat → Nat) (gap : Nat)
    (disp : Activity → Except String Unit) (s : EngineState) (e : Event) :
    (handle clock gap disp s e).dispatched = none ∨
    (e = Event.Mousemove ∧
      (handle clock gap disp s e).dispatched = some Activity.Active) ∨
    (e = Event.TimePassed ∧
      (handle clock gap disp s e).dispatched = some Activity.Inactive) := by
  cases e with
  | Mousemove =>
    cases hb : s.last_is_active with
    | true => exact Or.inl (by simp [handle, hb])
    | false =>
      cases hA : disp Activity.Active with
      | ok u => exact Or.inr (Or.inl ⟨rfl, by simp [handle, hb, hA]⟩)
      | error m => exact Or.inr (Or.inl ⟨rfl, by simp [handle, hb, hA]⟩)
  | TimePassed =>
    cases hb : s.last_is_active with
    | false => exact Or.inl (by simp [handle, hb])
    | true =>
      by_cases hlt : clock s.idx - s.last_move_time < gap
      · exact Or.inl (by simp [handle, hb, hlt])
      · cases hI : disp Activity.Inactive with
        | ok u => exact Or.inr (Or.inr ⟨rfl, by simp [handle, hb, hlt, hI]⟩)
        | error m => exact Or.inr (Or.inr ⟨rfl, by simp [handle, hb, hlt, hI]⟩)

/-- The `enum Mode { Quiet, Print, Chart(..) }` from `activity_thread_main`
(main.rs lines 143-147).  The `Chart` sender is modelled by the
`ChartSend` effect below. -/
inductive Mode
  | Quiet
  | Print
  | Chart
deriving DecidableEq, Repr

/-- The mode selection `match (quiet, chart)` in `activity_thread_main`
(main.rs lines 149-161).  The second component records whether a chart
thread was spawned, which happens only in the `(false, true)` arm. -/
def modeSetup : Bool → Bool → Mode × Bool
  | false, false => (Mode.Print, false)
  | false, true => (Mode.Chart, true)
  | true, _ => (Mode.Quiet, false)

/-- Observable side effects of one dispatcher call in
`activity_thread_main` (main.rs lines 163-208).  `Spawn path true true`
models `Command::new(path).stdout(Stdio::null()).stderr(Stdio::null())
.spawn()`: the child is launched detached (spawned, never waited on) with
both its stdout and stderr suppressed; the two `Bool` fields record the
stdout/stderr suppression. -/
inductive Effect
  | PrintLine (line : String)
  | ChartSend (a : Activity)
  | Spawn (path : String) (stdout_null : Bool) (stderr_null : Bool)
deriving DecidableEq, Repr

/-- The status line printed in `Mode::Print` (main.rs lines 167-179). -/
def statusLine : Activity → String
  | Activity.Inactive => "INACTIVE"
  | Activity.Active => "ACTIVE"

/-- The effects of the `on_activity` closure built in `activity_thread_main`
(main.rs lines 163-208): first the per-mode output (nothing when quiet, a
status line when printing, a channel send when charting), then the optional
detached process launch for the transition's direction. -/
def on_activity_effects (mode : Mode) (on_active on_inactive : Option String)
    (activity : Activity) : List Effect :=
  (match mode with
   | Mode.Quiet => []
   | Mode.Print => [Effect.PrintLine (statusLine activity)]
   | Mode.Chart => [Effect.ChartSend activity]) ++
  (match activity with
   | Activity.Active =>
     match on_active with
     | some p => [Effect.Spawn p true true]
     | none => []
   | Activity.Inactive =>
     match on_inactive with
     | some p => [Effect.Spawn p true true]
     | none => [])

/-- Claim C8: for every dispatched transition — quiet mode prints no status
line regardless of the chart setting; chart mode (without quiet) prints no
status line and forwards the `Activity` value to the chart channel; and in
every mode, a configured executable path for the transition's direction is
launched detached with stdout and stderr suppressed. -/
theorem dispatcher_modes (quiet chart : Bool) (oa oi : Option String) (a : Activity) :
    (quiet = true → ∀ l,
      Effect.PrintLine l ∉ on_activity_effects (modeSetup quiet chart).1 oa oi a) ∧
    (quiet = false → chart = true →
      (∀ l, Effect.PrintLine l ∉ on_activity_effects (modeSetup quiet chart).1 oa oi a) ∧
      Effect.ChartSend a ∈ on_activity_effects (modeSetup quiet chart).1 oa oi a) ∧
    (∀ p, a = Activity.Active → oa = some p →
      Effect.Spawn p true true ∈ on_activity_effects (modeSetup quiet chart).1 oa oi a) ∧
    (∀ p, a = Activity.Inactive → oi = some p →
      Effect.Spawn p true true ∈ on_activity_effects (modeSetup quiet chart).1 oa oi a) := by
  refine ⟨?_, ?_, ?_, ?_⟩
  · intro hq l
    subst hq
    cases a <;> rcases oa with _ | p <;> rcases oi with _ | p <;> cases chart <;>
      simp [modeSetup, on_activity_effects]
  · intro hq hc
    subst hq; subst hc
    cases a <;> rcases oa with _ | p <;> rcases oi with _ | p <;>
      simp [modeSetup, on_activity_effects]
  · intro p ha hoa
    subst ha; subst hoa
    cases quiet <;> cases chart <;> simp [modeSetup, on_activity_effects]
  · intro p ha hoi
    subst ha; subst hoi
    cases quiet <;> cases chart <;> simp [modeSetup, on_activity_effects]

theorem dispatcher_modes_witness :
    Effect.PrintLine "ACTIVE" ∉
      on_activity_effects (modeSetup true false).1 (some "/bin/a") none Activity.Active ∧
    ((∀ l, Effect.PrintLine l ∉
        on_activity_effects (modeSetup false true).1 none none Activity.Active) ∧
      Effect.ChartSend Activity.Active ∈
        on_activity_effects (modeSetup false true).1 none none Activity.Active) ∧
    Effect.Spawn "/bin/a" true true ∈
      on_activity_effects (modeSetup true false).1 (some "/bin/a") none Activity.Active ∧
    Effect.Spawn "/bin/b" true true ∈
      on_activity_effects (modeSetup false false).1 none (some "/bin/b") Activity.Inactive :=
  ⟨(dispatcher_modes true false (some "/bin/a") none Activity.Active).1 rfl "ACTIVE",
   (dispatcher_modes false true none none Activity.Active).2.1 rfl rfl,
   (dispatcher_modes true false (some "/bin/a") none Activity.Active).2.2.1 "/bin/a" rfl rfl,
   (dispatcher_modes false false none (some "/bin/b") Activity.Inactive).2.2.2 "/bin/b" rfl rfl⟩

/-- Claim C9: when both the quiet and chart flags are set, quiet takes full
precedence: the selected mode is `Quiet`, no chart thread is spawned, every
effect of a dispatch is a detached process launch (in particular no
`ChartSend` and no `PrintLine` ever occurs), and the configured process
launches still happen for the transition's direction. -/
theorem quiet_overrides_chart (oa oi : Option String) (a : Activity) :
    modeSetup true true = (Mode.Quiet, false) ∧
    (∀ e, e ∈ on_activity_effects (modeSetup true true).1 oa oi a →
      ∃ p, e = Effect.Spawn p true true) ∧
    (∀ p, a = Activity.Active → oa = some p →
      Effect.Spawn p true true ∈ on_activity_effects (modeSetup true true).1 oa oi a) ∧
    (∀ p, a = Activity.Inactive → oi = some p →
      Effect.Spawn p true true ∈ on_activity_effects (modeSetup true true).1 oa oi a) := by
  refine ⟨rfl, ?_, ?_, ?_⟩
  · intro e he
    cases a <;> rcases oa with _ | p <;> rcases oi with _ | p <;>
      simp [modeSetup, on_activity_effects] at he <;> exact ⟨_, he⟩
  · intro p ha hoa
    subst ha; subst hoa
    simp [modeSetup, on_activity_effects]
  · intro p ha hoi
    subst ha; subst hoi
    simp [modeSetup, on_activity_effects]

theorem quiet_overrides_chart_witness :
    modeSetup true true = (Mode.Quiet, false) ∧
    (∃ p, Effect.Spawn "/bin/b" true true = Effect.Spawn p true true) ∧
    Effect.Spawn "/bin/b" true true ∈
      on_activity_effects (modeSetup true true).1 none (some "/bin/b") Activity.Inactive :=
  ⟨(quiet_overrides_chart none (some "/bin/b") Activity.Inactive).1,
   (quiet_overrides_chart none (some "/bin/b") Activity.Inactive).2.1
     (Effect.Spawn "/bin/b" true true)
     ((quiet_overrides_chart none (some "/bin/b") Activity.Inactive).2.2.2 "/bin/b" rfl rfl),
   (quiet_overrides_chart none (some "/bin/b") Activity.Inactive).2.2.2 "/bin/b" rfl rfl⟩

end OnMouse
